import Mathlib

/-
Shallow embedding of the derived-metrics engine of the faj-finance-tracker
repository (src/features/budgets/budgets.py, src/features/analytics/analytics.py,
src/features/smart_assistant/smart_assistant.py, src/dashboard.py).

Transactions carry integer minor-unit amounts; Python float arithmetic on
ratios of integers is modelled with exact rational arithmetic over ℚ.
-/

namespace FinanceTracker

/-- Transaction kind, the value of the record field named type in the source:
the strings income and expense. -/
inductive TKind
  | income
  | expense
deriving DecidableEq

/-- Calendar date as produced by datetime.date: year, month, day. -/
structure Date where
  year : Nat
  month : Nat
  day : Nat
deriving DecidableEq

/-- Transaction record as read by _read_transactions in
src/features/transactions/transactions.py. -/
structure Transaction where
  date : Date
  type : TKind
  category : String
  description : String
  amount : Int
deriving DecidableEq

/-- Lexicographic order on dates, as Python compares datetime.date values. -/
def Date.le (a b : Date) : Bool :=
  decide (a.year < b.year ∨
    (a.year = b.year ∧ (a.month < b.month ∨ (a.month = b.month ∧ a.day ≤ b.day))))

/-- The value now.replace(day=1) used by the analytics module. -/
def current_month_start (now : Date) : Date :=
  { year := now.year, month := now.month, day := 1 }

/-- Monthly filter used by financial_health_score in
src/features/analytics/analytics.py (lines 140-142): keeps every transaction
whose date is greater than or equal to the first day of the reference month. -/
def monthly_transactions (all_transactions : List Transaction) (now : Date) :
    List Transaction :=
  all_transactions.filter (fun t => Date.le (current_month_start now) t.date)

/-- Per-category spending for the current month computed by view_budget in
src/features/budgets/budgets.py (lines 61-65): sums expense amounts whose
date has the same month and year as now. -/
def view_budget_monthly_spending (all_transactions : List Transaction)
    (now : Date) (category : String) : Int :=
  ((all_transactions.filter (fun t =>
      t.type == TKind.expense && t.date.month == now.month &&
      t.date.year == now.year && t.category == category)).map
    Transaction.amount).sum

/-- Budget status labels displayed by view_budget. -/
inductive Status
  | OK
  | Warning
  | Over
deriving DecidableEq

/-- Utilization percentage computed by view_budget (line 79):
(spent / budget) * 100 when the budget amount is positive, otherwise 0. -/
def view_budget_utilization (budget_amount spent_amount : Int) : ℚ :=
  if budget_amount > 0 then (spent_amount : ℚ) / (budget_amount : ℚ) * 100 else 0

/-- Status classification of view_budget (lines 82-87): Over when utilization
is strictly above 100, Warning when strictly above 70, otherwise OK. -/
def view_budget_status (utilization : ℚ) : Status :=
  if utilization > 100 then Status.Over
  else if utilization > 70 then Status.Warning
  else Status.OK

/-- Progress-bar colors of the dashboard budget section. -/
inductive BarColor
  | red
  | orange
  | green
deriving DecidableEq

/-- Color classification in src/dashboard.py (lines 257-262): red when the
percentage is at least 100, orange when at least 70, otherwise green. -/
def dashboard_bar_color (percentage : ℚ) : BarColor :=
  if percentage ≥ 100 then BarColor.red
  else if percentage ≥ 70 then BarColor.orange
  else BarColor.green

/-- Sample transaction dated 2025-07-01, used to exercise the monthly filter
against a reference date in June 2025. -/
def sampleFutureTx : Transaction :=
  { date := { year := 2025, month := 7, day := 1 }, type := TKind.expense,
    category := "Food", description := "d", amount := 100 }

/-- C1 counterexample: with limit 100 and spent 70 the utilization is exactly
70, yet view_budget classifies it OK, not Warning as the claim requires (the
source tests utilization strictly greater than 70). -/
theorem C1_counterexample :
    view_budget_utilization 100 70 = 70 ∧
    view_budget_status (view_budget_utilization 100 70) = Status.OK := by
  constructor
  · norm_num [view_budget_utilization]
  · norm_num [view_budget_utilization, view_budget_status]

/-- C1 (amended): view_budget classifies Over exactly when utilization is
strictly above 100, Warning exactly when strictly above 70 and at most 100,
and OK exactly when at most 70 (so utilization exactly 70 yields OK and
exactly 100 yields Warning); the dashboard instead colors red exactly when
the percentage is at least 100 and orange exactly when at least 70 but below
100 (so an exact-limit spend is colored red there). -/
theorem C1_amended (u : ℚ) :
    (view_budget_status u = Status.Over ↔ 100 < u) ∧
    (view_budget_status u = Status.Warning ↔ 70 < u ∧ u ≤ 100) ∧
    (view_budget_status u = Status.OK ↔ u ≤ 70) ∧
    (dashboard_bar_color u = BarColor.red ↔ 100 ≤ u) ∧
    (dashboard_bar_color u = BarColor.orange ↔ 70 ≤ u ∧ u < 100) ∧
    (dashboard_bar_color u = BarColor.green ↔ u < 70) ∧
    view_budget_status (view_budget_utilization 100 100) = Status.Warning ∧
    dashboard_bar_color (view_budget_utilization 100 100) = BarColor.red := by
  refine ⟨?_, ?_, ?_, ?_, ?_, ?_, ?_, ?_⟩
  · unfold view_budget_status
    split_ifs with h1 h2
    · exact iff_of_true rfl h1
    · exact iff_of_false (by decide) h1
    · exact iff_of_false (by decide) h1
  · unfold view_budget_status
    split_ifs with h1 h2
    · exact iff_of_false (by decide)
        (fun h => absurd h.2 (not_le.mpr h1))
    · exact iff_of_true rfl ⟨h2, not_lt.mp h1⟩
    · exact iff_of_false (by decide) (fun h => h2 h.1)
  · unfold view_budget_status
    split_ifs with h1 h2
    · exact iff_of_false (by decide)
        (fun h => absurd h (not_le.mpr (by linarith)))
    · exact iff_of_false (by decide) (not_le.mpr h2)
    · exact iff_of_true rfl (not_lt.mp h2)
  · unfold dashboard_bar_color
    split_ifs with h1 h2
    · exact iff_of_true rfl h1
    · exact iff_of_false (by decide) h1
    · exact iff_of_false (by decide) h1
  · unfold dashboard_bar_color
    split_ifs with h1 h2
    · exact iff_of_false (by decide)
        (fun h => absurd h.2 (not_lt.mpr h1))
    · exact iff_of_true rfl ⟨h2, not_le.mp h1⟩
    · exact iff_of_false (by decide) (fun h => h2 h.1)
  · unfold dashboard_bar_color
    split_ifs with h1 h2
    · exact iff_of_false (by decide)
        (not_lt.mpr (by linarith))
    · exact iff_of_false (by decide) (not_lt.mpr h2)
    · exact iff_of_true rfl (not_le.mp h2)
  · norm_num [view_budget_utilization, view_budget_status]
  · norm_num [view_budget_utilization, dashboard_bar_color]

/-- C2 counterexample: with reference date 2025-06-15, a transaction dated
2025-07-01 (a later month) is kept by the filter that feeds
financial_health_score, although the claim requires it to be excluded. -/
theorem C2_counterexample :
    sampleFutureTx ∈
      monthly_transactions [sampleFutureTx] { year := 2025, month := 6, day := 15 } ∧
    sampleFutureTx.date.month ≠ 6 := by
  constructor
  · simp [monthly_transactions, current_month_start, Date.le, sampleFutureTx]
  · simp [sampleFutureTx]

/-- C2 (amended): the filter feeding monthly summaries and health scoring
keeps exactly the transactions whose date is lexicographically at least the
first day of the reference month — every same-month transaction, but also any
transaction dated in a later month or year; an empty input yields an empty
result. Budget status, by contrast, sums exactly the expenses whose month and
year equal the reference date's. -/
theorem C2_amended (ts : List Transaction) (now : Date) (t : Transaction) :
    monthly_transactions [] now = [] ∧
    (t ∈ monthly_transactions ts now ↔ t ∈ ts ∧
      (now.year < t.date.year ∨
        (now.year = t.date.year ∧ (now.month < t.date.month ∨
          (now.month = t.date.month ∧ 1 ≤ t.date.day))))) ∧
    view_budget_monthly_spending ts now t.category =
      (ts.map (fun s =>
        if s.type = TKind.expense ∧ s.date.month = now.month ∧
            s.date.year = now.year ∧ s.category = t.category
        then s.amount else 0)).sum := by
  refine ⟨rfl, ?_, ?_⟩
  · simp [monthly_transactions, List.mem_filter, Date.le, current_month_start]
  · unfold view_budget_monthly_spending
    induction ts with
    | nil => rfl
    | cons s rest ih =>
        simp only [List.map_cons, List.sum_cons, List.filter_cons]
        by_cases h : s.type = TKind.expense ∧ s.date.month = now.month ∧
            s.date.year = now.year ∧ s.category = t.category
        · rw [if_pos (by simp [Bool.and_eq_true, beq_iff_eq]; tauto), if_pos h,
            List.map_cons, List.sum_cons, ih]
        · rw [if_neg (by simp [Bool.and_eq_true, beq_iff_eq]; tauto), if_neg h, ih]
          omega

/-- Savings rate computed by _calculate_savings_rate_score:
((total_income - total_expenses) / total_income) * 100. -/
def savings_rate (total_income total_expenses : Int) : ℚ :=
  ((total_income - total_expenses : Int) : ℚ) / (total_income : ℚ) * 100

/-- Savings-rate sub-score (max 40) of src/features/analytics/analytics.py
lines 229-241, duplicated verbatim in src/dashboard.py lines 90-102. -/
def _calculate_savings_rate_score (total_income total_expenses : Int) : Int :=
  if total_income = 0 then 0
  else if savings_rate total_income total_expenses ≥ 20 then 40
  else if savings_rate total_income total_expenses ≥ 10 then 30
  else if savings_rate total_income total_expenses ≥ 0 then 20
  else 0

/-- Per-category expense sum used inside _calculate_budget_adherence_score:
the amounts of transactions of the given category whose type is expense. -/
def adherence_spent (monthly_transactions : List Transaction)
    (category : String) : Int :=
  ((monthly_transactions.filter (fun t =>
      t.type == TKind.expense && t.category == category)).map
    Transaction.amount).sum

/-- Loop body of _calculate_budget_adherence_score: for a category with a
positive budget amount, add the utilization clamped at 100 to the running
total and bump the category count; otherwise leave the accumulator alone. -/
def adherence_step (monthly_transactions : List Transaction)
    (acc : ℚ × Nat) (p : String × Int) : ℚ × Nat :=
  if p.2 > 0 then
    (acc.1 + min (((adherence_spent monthly_transactions p.1 : Int) : ℚ) /
      (p.2 : ℚ) * 100) 100, acc.2 + 1)
  else acc

/-- Budget-adherence sub-score (max 35) of src/features/analytics/analytics.py
lines 243-273, duplicated verbatim in src/dashboard.py lines 104-134. -/
def _calculate_budget_adherence_score (monthly_transactions : List Transaction)
    (budgets : List (String × Int)) : Int :=
  if budgets = [] then 0
  else
    let acc := budgets.foldl (adherence_step monthly_transactions) (0, 0)
    if acc.2 = 0 then 35
    else if acc.1 / (acc.2 : ℚ) ≤ 80 then 35
    else if acc.1 / (acc.2 : ℚ) ≤ 90 then 25
    else if acc.1 / (acc.2 : ℚ) ≤ 100 then 15
    else 5

/-- Income-vs-expense sub-score (max 25) of src/features/analytics/analytics.py
lines 275-284, duplicated verbatim in src/dashboard.py lines 136-145; the
Python literal 0.9 is the exact rational 9/10. -/
def _calculate_income_expense_score (total_income total_expenses : Int) : Int :=
  if total_income = 0 then 0
  else if total_income > total_expenses then 25
  else if (total_income : ℚ) * (9 / 10) < (total_expenses : ℚ) then 10
  else 0

/-- Sum of income amounts over a transaction list, as computed inside
financial_health_score. -/
def total_income_of (ts : List Transaction) : Int :=
  ((ts.filter (fun t => t.type == TKind.income)).map Transaction.amount).sum

/-- Sum of expense amounts over a transaction list, as computed inside
financial_health_score. -/
def total_expenses_of (ts : List Transaction) : Int :=
  ((ts.filter (fun t => t.type == TKind.expense)).map Transaction.amount).sum

/-- Composite final_score of financial_health_score (analytics.py lines
144-153): the sum of the three sub-scores on the given monthly totals,
monthly transaction list and budget map. -/
def final_score (total_income total_expenses : Int)
    (monthly_transactions : List Transaction)
    (budgets : List (String × Int)) : Int :=
  _calculate_savings_rate_score total_income total_expenses +
  _calculate_budget_adherence_score monthly_transactions budgets +
  _calculate_income_expense_score total_income total_expenses

/-- Whole financial_health_score pipeline (analytics.py lines 131-153): filter
the transactions to the reference month, derive the monthly totals, and sum
the three sub-scores. -/
def financial_health_score (all_transactions : List Transaction)
    (budgets : List (String × Int)) (now : Date) : Int :=
  final_score (total_income_of (monthly_transactions all_transactions now))
    (total_expenses_of (monthly_transactions all_transactions now))
    (monthly_transactions all_transactions now) budgets

/-- Categories of the budget map that carry a positive limit; these are
exactly the ones the adherence loop counts. -/
def eligible_budgets (budgets : List (String × Int)) : List (String × Int) :=
  budgets.filter (fun p => 0 < p.2)

/-- Clamped utilization list over the eligible budget categories, used to
phrase the adherence score as an arithmetic mean. -/
def clamped_utilizations (monthly_transactions : List Transaction)
    (budgets : List (String × Int)) : List ℚ :=
  (eligible_budgets budgets).map (fun p =>
    min (((adherence_spent monthly_transactions p.1 : Int) : ℚ) /
      (p.2 : ℚ) * 100) 100)

lemma clamped_utilizations_cons_pos (mt : List Transaction) (p : String × Int)
    (rest : List (String × Int)) (h : 0 < p.2) :
    clamped_utilizations mt (p :: rest) =
      (min (((adherence_spent mt p.1 : Int) : ℚ) / (p.2 : ℚ) * 100) 100) ::
        clamped_utilizations mt rest := by
  simp [clamped_utilizations, eligible_budgets, List.filter_cons, h]

lemma clamped_utilizations_cons_nonpos (mt : List Transaction) (p : String × Int)
    (rest : List (String × Int)) (h : ¬ 0 < p.2) :
    clamped_utilizations mt (p :: rest) = clamped_utilizations mt rest := by
  simp [clamped_utilizations, eligible_budgets, List.filter_cons, h]

lemma adherence_foldl (mt : List Transaction) (budgets : List (String × Int))
    (a : ℚ) (n : Nat) :
    budgets.foldl (adherence_step mt) (a, n) =
      (a + (clamped_utilizations mt budgets).sum,
        n + (clamped_utilizations mt budgets).length) := by
  induction budgets generalizing a n with
  | nil => simp [clamped_utilizations, eligible_budgets]
  | cons p rest ih =>
      rw [List.foldl_cons]
      by_cases h : 0 < p.2
      · rw [show adherence_step mt (a, n) p =
            (a + min (((adherence_spent mt p.1 : Int) : ℚ) / (p.2 : ℚ) * 100) 100,
              n + 1) from by simp [adherence_step, h]]
        rw [ih, clamped_utilizations_cons_pos mt p rest h]
        simp only [List.sum_cons, List.length_cons, Prod.mk.injEq]
        constructor
        · ring
        · omega
      · rw [show adherence_step mt (a, n) p = (a, n) from by
          simp [adherence_step, h]]
        rw [ih, clamped_utilizations_cons_nonpos mt p rest h]

lemma adherence_score_eq (mt : List Transaction)
    (budgets : List (String × Int)) :
    _calculate_budget_adherence_score mt budgets =
      if budgets = [] then 0
      else if clamped_utilizations mt budgets = [] then 35
      else if (clamped_utilizations mt budgets).sum /
          ((clamped_utilizations mt budgets).length : ℚ) ≤ 80 then 35
      else if (clamped_utilizations mt budgets).sum /
          ((clamped_utilizations mt budgets).length : ℚ) ≤ 90 then 25
      else if (clamped_utilizations mt budgets).sum /
          ((clamped_utilizations mt budgets).length : ℚ) ≤ 100 then 15
      else 5 := by
  unfold _calculate_budget_adherence_score
  by_cases hb : budgets = []
  · simp [hb]
  · rw [if_neg hb, if_neg hb, adherence_foldl]
    simp only [zero_add]
    by_cases hc : clamped_utilizations mt budgets = []
    · simp [hc]
    · have hlen : (clamped_utilizations mt budgets).length ≠ 0 := by
        simpa [List.length_eq_zero] using hc
      rw [if_neg hlen, if_neg hc]

/-- C3: the budget-adherence sub-score is 0 on an empty budget map, 35 when
the budget map is non-empty but no category has a positive limit, and
otherwise bands the arithmetic mean of the per-category utilizations, each
clamped at 100 before averaging and taken over every category with a positive
limit (including zero-spend ones): at most 80 gives 35, at most 90 gives 25,
at most 100 gives 15, and above 100 gives 5. -/
theorem C3_budget_adherence (mt : List Transaction)
    (budgets : List (String × Int)) :
    _calculate_budget_adherence_score mt budgets =
      if budgets = [] then 0
      else if eligible_budgets budgets = [] then 35
      else if (clamped_utilizations mt budgets).sum /
          ((clamped_utilizations mt budgets).length : ℚ) ≤ 80 then 35
      else if (clamped_utilizations mt budgets).sum /
          ((clamped_utilizations mt budgets).length : ℚ) ≤ 90 then 25
      else if (clamped_utilizations mt budgets).sum /
          ((clamped_utilizations mt budgets).length : ℚ) ≤ 100 then 15
      else 5 := by
  rw [adherence_score_eq]
  have he : (clamped_utilizations mt budgets = []) ↔
      (eligible_budgets budgets = []) := by
    simp [clamped_utilizations]
  by_cases hb : budgets = []
  · simp [hb]
  · rw [if_neg hb, if_neg hb]
    by_cases hc : eligible_budgets budgets = []
    · rw [if_pos (he.mpr hc), if_pos hc]
    · rw [if_neg (fun h => hc (he.mp h)), if_neg hc]

/-- C9: because every per-category utilization is clamped at 100 before
averaging, the average never exceeds 100 and the 5-point band is unreachable:
whenever some budgeted category has a positive limit, the adherence score is
15, 25 or 35. -/
theorem C9_five_unreachable (mt : List Transaction)
    (budgets : List (String × Int)) (h : ∃ p ∈ budgets, 0 < p.2) :
    _calculate_budget_adherence_score mt budgets = 15 ∨
    _calculate_budget_adherence_score mt budgets = 25 ∨
    _calculate_budget_adherence_score mt budgets = 35 := by
  obtain ⟨p, hp, hpos⟩ := h
  have hb : budgets ≠ [] := by rintro rfl; exact absurd hp (List.not_mem_nil p)
  have hel : p ∈ eligible_budgets budgets := by
    simp [eligible_budgets, List.mem_filter, hp, hpos]
  have hc : clamped_utilizations mt budgets ≠ [] := by
    simp only [clamped_utilizations]
    intro hnil
    rw [List.map_eq_nil_iff] at hnil
    rw [hnil] at hel
    exact absurd hel (List.not_mem_nil p)
  have hlenpos : 0 < ((clamped_utilizations mt budgets).length : ℚ) := by
    have := List.length_pos.mpr hc
    exact_mod_cast this
  have hbound : ∀ x ∈ clamped_utilizations mt budgets, x ≤ 100 := by
    intro x hx
    simp only [clamped_utilizations, List.mem_map] at hx
    obtain ⟨q, hq, rfl⟩ := hx
    exact min_le_right _ _
  have hsum : (clamped_utilizations mt budgets).sum ≤
      ((clamped_utilizations mt budgets).length : ℚ) * 100 := by
    have := List.sum_le_card_nsmul (clamped_utilizations mt budgets) 100 hbound
    simpa [nsmul_eq_mul] using this
  have havg : (clamped_utilizations mt budgets).sum /
      ((clamped_utilizations mt budgets).length : ℚ) ≤ 100 := by
    rw [div_le_iff₀ hlenpos]
    linarith
  rw [adherence_score_eq, if_neg hb, if_neg hc]
  split_ifs with h80 h90
  · exact Or.inr (Or.inr rfl)
  · exact Or.inr (Or.inl rfl)
  · exact Or.inl rfl

/-- C9 witness: the budget map with the single entry Food at limit 100 has a
positive-limit category, and with no transactions the adherence score is one
of 15, 25, 35 (here 35). -/
theorem C9_five_unreachable_witness :
    (∃ p ∈ [(("Food" : String), (100 : Int))], 0 < p.2) ∧
    (_calculate_budget_adherence_score [] [(("Food" : String), (100 : Int))] = 15 ∨
     _calculate_budget_adherence_score [] [(("Food" : String), (100 : Int))] = 25 ∨
     _calculate_budget_adherence_score [] [(("Food" : String), (100 : Int))] = 35) := by
  refine ⟨⟨("Food", 100), by simp, by norm_num⟩, ?_⟩
  exact C9_five_unreachable [] [("Food", 100)] ⟨("Food", 100), by simp, by norm_num⟩

/-- C4: the savings-rate sub-score is 0 when monthly income is 0; otherwise,
with rate = (income - expenses) / income * 100, it is 40 when the rate is at
least 20, 30 when in [10, 20), 20 when in [0, 10), and 0 when negative; in
particular income 1000 with expenses 800 scores 40 and with expenses 810
scores 30. -/
theorem C4_savings_rate (total_income total_expenses : Int) :
    (total_income = 0 →
      _calculate_savings_rate_score total_income total_expenses = 0) ∧
    (total_income ≠ 0 →
      ((20 ≤ savings_rate total_income total_expenses →
          _calculate_savings_rate_score total_income total_expenses = 40) ∧
       (10 ≤ savings_rate total_income total_expenses ∧
          savings_rate total_income total_expenses < 20 →
          _calculate_savings_rate_score total_income total_expenses = 30) ∧
       (0 ≤ savings_rate total_income total_expenses ∧
          savings_rate total_income total_expenses < 10 →
          _calculate_savings_rate_score total_income total_expenses = 20) ∧
       (savings_rate total_income total_expenses < 0 →
          _calculate_savings_rate_score total_income total_expenses = 0))) ∧
    _calculate_savings_rate_score 1000 800 = 40 ∧
    _calculate_savings_rate_score 1000 810 = 30 := by
  refine ⟨?_, ?_, ?_, ?_⟩
  · intro h
    simp [_calculate_savings_rate_score, h]
  · intro h
    refine ⟨?_, ?_, ?_, ?_⟩
    · intro hr
      simp only [_calculate_savings_rate_score, if_neg h]
      split_ifs <;> first | rfl | (exfalso; linarith)
    · rintro ⟨h1, h2⟩
      simp only [_calculate_savings_rate_score, if_neg h]
      split_ifs <;> first | rfl | (exfalso; linarith)
    · rintro ⟨h1, h2⟩
      simp only [_calculate_savings_rate_score, if_neg h]
      split_ifs <;> first | rfl | (exfalso; linarith)
    · intro hr
      simp only [_calculate_savings_rate_score, if_neg h]
      split_ifs <;> first | rfl | (exfalso; linarith)
  · norm_num [_calculate_savings_rate_score, savings_rate]
  · norm_num [_calculate_savings_rate_score, savings_rate]

/-- C4 witness: at income 1000 and expenses 810 the income is non-zero and
the rate 19 lies in [10, 20), so the theorem yields the sub-score 30. -/
theorem C4_savings_rate_witness :
    (1000 : Int) ≠ 0 ∧
    (10 ≤ savings_rate 1000 810 ∧ savings_rate 1000 810 < 20) ∧
    _calculate_savings_rate_score 1000 810 = 30 := by
  have h := (C4_savings_rate 1000 810).2.1 (by norm_num)
  refine ⟨by norm_num, ⟨by norm_num [savings_rate], by norm_num [savings_rate]⟩, ?_⟩
  exact h.2.1 ⟨by norm_num [savings_rate], by norm_num [savings_rate]⟩

/-- C10: when monthly income is strictly positive the income-vs-expense
sub-score is never 0: it is 25 when income strictly exceeds expenses and 10
otherwise, because the final branch would need expenses at least the income
yet at most nine tenths of it. -/
theorem C10_income_expense_positive (total_income total_expenses : Int)
    (h : 0 < total_income) :
    _calculate_income_expense_score total_income total_expenses =
      (if total_expenses < total_income then 25 else 10) ∧
    (_calculate_income_expense_score total_income total_expenses = 10 ∨
     _calculate_income_expense_score total_income total_expenses = 25) := by
  have hne : total_income ≠ 0 := by omega
  unfold _calculate_income_expense_score
  rw [if_neg hne]
  by_cases hgt : total_income > total_expenses
  · rw [if_pos hgt, if_pos hgt]
    exact ⟨rfl, Or.inr rfl⟩
  · have h1 : (total_income : ℚ) ≤ (total_expenses : ℚ) := by
      exact_mod_cast not_lt.mp hgt
    have h2 : (0 : ℚ) < (total_income : ℚ) := by exact_mod_cast h
    have hlt : (total_income : ℚ) * (9 / 10) < (total_expenses : ℚ) := by
      linarith
    rw [if_neg hgt, if_pos hlt, if_neg (by omega : ¬ total_expenses < total_income)]
    exact ⟨rfl, Or.inl rfl⟩

/-- C10 witness: with income 5 and expenses 5 the income is positive, income
does not exceed expenses, and the sub-score is 10. -/
theorem C10_income_expense_positive_witness :
    (0 : Int) < 5 ∧ _calculate_income_expense_score 5 5 = 10 := by
  have h := (C10_income_expense_positive 5 5 (by norm_num)).1
  refine ⟨by norm_num, ?_⟩
  simpa using h

lemma savings_rate_score_bounds (total_income total_expenses : Int) :
    0 ≤ _calculate_savings_rate_score total_income total_expenses ∧
    _calculate_savings_rate_score total_income total_expenses ≤ 40 := by
  unfold _calculate_savings_rate_score
  split_ifs <;> norm_num

lemma budget_adherence_score_bounds (mt : List Transaction)
    (budgets : List (String × Int)) :
    0 ≤ _calculate_budget_adherence_score mt budgets ∧
    _calculate_budget_adherence_score mt budgets ≤ 35 := by
  rw [adherence_score_eq]
  split_ifs <;> norm_num

lemma income_expense_score_bounds (total_income total_expenses : Int) :
    0 ≤ _calculate_income_expense_score total_income total_expenses ∧
    _calculate_income_expense_score total_income total_expenses ≤ 25 := by
  unfold _calculate_income_expense_score
  split_ifs <;> norm_num

/-- C7: the scoring pipeline is a total function of its inputs (each division
sits under the income-zero or positive-limit guard of the source, and every
Lean definition here is total), the composite score always lies in [0, 100],
and the all-zero input — no transactions and no budgets — yields total 0. -/
theorem C7_score_total_range (total_income total_expenses : Int)
    (mt : List Transaction) (budgets : List (String × Int)) (now : Date) :
    0 ≤ final_score total_income total_expenses mt budgets ∧
    final_score total_income total_expenses mt budgets ≤ 100 ∧
    financial_health_score [] [] now = 0 := by
  obtain ⟨a1, a2⟩ := savings_rate_score_bounds total_income total_expenses
  obtain ⟨b1, b2⟩ := budget_adherence_score_bounds mt budgets
  obtain ⟨c1, c2⟩ := income_expense_score_bounds total_income total_expenses
  refine ⟨?_, ?_, ?_⟩
  · unfold final_score
    linarith
  · unfold final_score
    linarith
  · rfl

/-- Anomaly detector detect_unusual_spending of
src/features/smart_assistant/smart_assistant.py (lines 3-29): collect the
amounts of all transactions sharing the candidate's category, return false
when there are none, otherwise flag the candidate exactly when its amount
strictly exceeds twice their average. -/
def detect_unusual_spending (transactions : List Transaction)
    (new_transaction : Transaction) : Bool :=
  let category_transactions :=
    (transactions.filter (fun t => t.category == new_transaction.category)).map
      Transaction.amount
  if category_transactions = [] then false
  else
    let average_spending :=
      ((category_transactions.map (fun a => (a : ℚ))).sum) /
        (category_transactions.length : ℚ)
    decide ((new_transaction.amount : ℚ) > average_spending * 2)

/-- Mean amount of the transactions of a given category in a history list,
the quantity the anomaly claim compares against. -/
def category_mean (history : List Transaction) (category : String) : ℚ :=
  let amounts := (history.filter (fun t => t.category == category)).map
    Transaction.amount
  ((amounts.map (fun a => (a : ℚ))).sum) / (amounts.length : ℚ)

/-- Sample history of two Food transactions of 100 minor units each. -/
def foodHistory : List Transaction :=
  [{ date := { year := 2025, month := 6, day := 1 }, type := TKind.expense,
     category := "Food", description := "a", amount := 100 },
   { date := { year := 2025, month := 6, day := 2 }, type := TKind.expense,
     category := "Food", description := "b", amount := 100 }]

/-- Candidate Food transaction of 201 minor units. -/
def cand201 : Transaction :=
  { date := { year := 2025, month := 6, day := 3 }, type := TKind.expense,
    category := "Food", description := "c", amount := 201 }

/-- Candidate Food transaction of 200 minor units. -/
def cand200 : Transaction :=
  { date := { year := 2025, month := 6, day := 4 }, type := TKind.expense,
    category := "Food", description := "c", amount := 200 }

/-- C5: detect_unusual_spending returns false when the history holds no
transaction of the candidate's category, and otherwise returns true exactly
when the candidate amount strictly exceeds twice the mean amount of the
history transactions of that category; with prior amounts 100 and 100 a
candidate of 201 is flagged and a candidate of 200 is not. -/
theorem C5_anomaly (history : List Transaction) (cand : Transaction) :
    (history.filter (fun t => t.category == cand.category) = [] →
      detect_unusual_spending history cand = false) ∧
    (history.filter (fun t => t.category == cand.category) ≠ [] →
      (detect_unusual_spending history cand = true ↔
        (cand.amount : ℚ) > 2 * category_mean history cand.category)) ∧
    detect_unusual_spending foodHistory cand201 = true ∧
    detect_unusual_spending foodHistory cand200 = false := by
  refine ⟨?_, ?_, ?_, ?_⟩
  case refine_3 =>
    simp [detect_unusual_spending, foodHistory, cand201]
    norm_num
  case refine_4 =>
    simp [detect_unusual_spending, foodHistory, cand200]
    norm_num
  · intro h
    simp [detect_unusual_spending, h]
  · intro h
    have hmap : (history.filter (fun t => t.category == cand.category)).map
        Transaction.amount ≠ [] := by
      simpa [List.map_eq_nil_iff] using h
    simp only [detect_unusual_spending, if_neg hmap, decide_eq_true_eq,
      category_mean]
    constructor <;> intro hx <;> linarith

/-- C5 witness: the sample Food history is non-empty in the candidate's
category, and the flagging equivalence holds there (201 exceeds twice the
mean 100). -/
theorem C5_anomaly_witness :
    foodHistory.filter (fun t => t.category == cand201.category) ≠ [] ∧
    (detect_unusual_spending foodHistory cand201 = true ↔
      (cand201.amount : ℚ) > 2 * category_mean foodHistory cand201.category) := by
  exact ⟨by decide, (C5_anomaly foodHistory cand201).2.1 (by decide)⟩

/-- Severity rank of the budget statuses, ordering OK below Warning below
Over. -/
def statusRank : Status → Nat
  | Status.OK => 0
  | Status.Warning => 1
  | Status.Over => 2

/-- C8: for a fixed positive limit, increasing the spent amount never
decreases the utilization percentage and never lowers the severity of the
view_budget status along the order OK, Warning, Over. -/
theorem C8_monotonicity (limit s1 s2 : Int) (hl : 0 < limit) (h12 : s1 ≤ s2) :
    view_budget_utilization limit s1 ≤ view_budget_utilization limit s2 ∧
    statusRank (view_budget_status (view_budget_utilization limit s1)) ≤
      statusRank (view_budget_status (view_budget_utilization limit s2)) := by
  have hu : view_budget_utilization limit s1 ≤ view_budget_utilization limit s2 := by
    unfold view_budget_utilization
    rw [if_pos hl, if_pos hl]
    have hql : (0 : ℚ) < (limit : ℚ) := by exact_mod_cast hl
    have hs : (s1 : ℚ) ≤ (s2 : ℚ) := by exact_mod_cast h12
    have hdiv : (s1 : ℚ) / (limit : ℚ) ≤ (s2 : ℚ) / (limit : ℚ) :=
      (div_le_div_right hql).mpr hs
    linarith
  refine ⟨hu, ?_⟩
  have mono : ∀ u v : ℚ, u ≤ v →
      statusRank (view_budget_status u) ≤ statusRank (view_budget_status v) := by
    intro u v huv
    unfold view_budget_status
    split_ifs <;> simp [statusRank] <;> linarith
  exact mono _ _ hu

/-- C8 witness: with limit 100 and spends 10 and 20 both monotonicity
conclusions hold. -/
theorem C8_monotonicity_witness :
    (0 : Int) < 100 ∧ (10 : Int) ≤ 20 ∧
    (view_budget_utilization 100 10 ≤ view_budget_utilization 100 20 ∧
     statusRank (view_budget_status (view_budget_utilization 100 10)) ≤
       statusRank (view_budget_status (view_budget_utilization 100 20))) := by
  exact ⟨by norm_num, by norm_num,
    C8_monotonicity 100 10 20 (by norm_num) (by norm_num)⟩

/-- Dictionary update underlying the spending_by_category accumulation of
get_recommendations: add the amount to the first entry holding the category,
or append a fresh entry at the end, reproducing Python dict insertion order. -/
def updateSpending (acc : List (String × Int)) (category : String)
    (amount : Int) : List (String × Int) :=
  match acc with
  | [] => [(category, amount)]
  | (c, v) :: rest =>
      if c = category then (c, v + amount) :: rest
      else (c, v) :: updateSpending rest category amount

/-- Loop body building spending_by_category in get_recommendations
(smart_assistant.py lines 39-43): expenses accumulate into the dictionary,
other transactions are ignored. -/
def spending_step (acc : List (String × Int)) (t : Transaction) :
    List (String × Int) :=
  if t.type == TKind.expense then updateSpending acc t.category t.amount
  else acc

/-- The spending_by_category mapping of get_recommendations: per-category
totals of the expense transactions, keyed in first-encounter order. -/
def spending_by_category (transactions : List Transaction) :
    List (String × Int) :=
  transactions.foldl spending_step []

/-- Python max with key=dict.get as used on spending_by_category: scan the
entries, replacing the current best only on a strictly larger value, so the
first maximal entry wins. -/
def maxEntry (best : String × Int) : List (String × Int) → String × Int
  | [] => best
  | p :: rest => maxEntry (if best.2 < p.2 then p else best) rest

/-- Advisory messages of get_recommendations, keyed by the category each one
names; the exact sentence text is presentation detail. -/
inductive Advisory
  | noBudgetHighSpend (category : String)
  | highestSpending (category : String)
deriving DecidableEq

/-- Recommendation engine get_recommendations of smart_assistant.py lines
31-62: one advisory per category whose accumulated expense exceeds 20000 and
that has no budget, in dictionary order, then one advisory naming the
highest-spending category whenever any expense category exists. -/
def get_recommendations (transactions : List Transaction)
    (budgets : List (String × Int)) : List Advisory :=
  let spending := spending_by_category transactions
  let recs1 := (spending.filter (fun p =>
      !(budgets.map Prod.fst).contains p.1 && decide (p.2 > 20000))).map
    (fun p => Advisory.noBudgetHighSpend p.1)
  let recs2 := match spending with
    | [] => []
    | p :: rest => [Advisory.highestSpending (maxEntry p rest).1]
  recs1 ++ recs2

/-- Lookup in the spending dictionary: the value of the first entry holding
the category, or 0 when the category is absent. -/
def lookupSpend (l : List (String × Int)) (c : String) : Int :=
  match l.find? (fun p => p.1 == c) with
  | some p => p.2
  | none => 0

/-- Loop body of the first-encounter category list. -/
def category_step (acc : List String) (t : Transaction) : List String :=
  if t.type == TKind.expense && !acc.contains t.category
  then acc ++ [t.category] else acc

/-- Expense categories of a transaction list in first-encounter order; these
are exactly the keys of spending_by_category. -/
def expense_categories (ts : List Transaction) : List String :=
  ts.foldl category_step []

/-- Transaction of 25000 minor units of expense in category Food, the input
of the concrete recommendation example. -/
def foodBig : Transaction :=
  { date := { year := 2025, month := 6, day := 5 }, type := TKind.expense,
    category := "Food", description := "big", amount := 25000 }

lemma lookupSpend_cons (k : String) (v : Int) (l : List (String × Int))
    (c : String) :
    lookupSpend ((k, v) :: l) c = if k = c then v else lookupSpend l c := by
  by_cases h : k = c
  · have hb : (k == c) = true := by simp [h]
    simp [lookupSpend, List.find?, hb, h]
  · have hb : (k == c) = false := by simp [h]
    simp [lookupSpend, List.find?, hb, h]

lemma lookupSpend_update (acc : List (String × Int)) (c c' : String) (a : Int) :
    lookupSpend (updateSpending acc c a) c' =
      lookupSpend acc c' + (if c' = c then a else 0) := by
  induction acc with
  | nil =>
      rw [show updateSpending [] c a = [(c, a)] from rfl, lookupSpend_cons]
      by_cases h : c = c'
      · rw [if_pos h, if_pos h.symm]
        simp [lookupSpend]
      · rw [if_neg h, if_neg (fun hh => h hh.symm)]
        simp [lookupSpend]
  | cons q rest ih =>
      obtain ⟨k, v⟩ := q
      by_cases hk : k = c
      · subst hk
        rw [show updateSpending ((k, v) :: rest) k a = (k, v + a) :: rest from by
          simp [updateSpending]]
        rw [lookupSpend_cons, lookupSpend_cons]
        by_cases h2 : k = c'
        · rw [if_pos h2, if_pos h2, if_pos h2.symm]
        · rw [if_neg h2, if_neg h2, if_neg (fun hh => h2 hh.symm)]
          omega
      · rw [show updateSpending ((k, v) :: rest) c a =
            (k, v) :: updateSpending rest c a from by simp [updateSpending, hk]]
        rw [lookupSpend_cons, lookupSpend_cons]
        by_cases h2 : k = c'
        · rw [if_pos h2, if_pos h2, if_neg (fun hh => hk (h2.trans hh))]
          omega
        · rw [if_neg h2, if_neg h2, ih]

lemma adherence_spent_cons (t : Transaction) (rest : List Transaction)
    (c : String) :
    adherence_spent (t :: rest) c =
      (if t.type = TKind.expense ∧ t.category = c then t.amount else 0) +
        adherence_spent rest c := by
  simp only [adherence_spent, List.filter_cons]
  by_cases h : t.type = TKind.expense ∧ t.category = c
  · rw [if_pos (by simp [h.1, h.2]), if_pos h]
    simp [adherence_spent]
  · rw [if_neg (by simp [Bool.and_eq_true, beq_iff_eq]; tauto), if_neg h]
    simp [adherence_spent]

lemma spending_foldl_lookup (ts : List Transaction) (c : String) :
    ∀ acc, lookupSpend (ts.foldl spending_step acc) c =
      lookupSpend acc c + adherence_spent ts c := by
  induction ts with
  | nil =>
      intro acc
      simp [adherence_spent]
  | cons t rest ih =>
      intro acc
      rw [List.foldl_cons, ih, adherence_spent_cons]
      unfold spending_step
      by_cases h : t.type = TKind.expense
      · rw [if_pos (by simp [h]), lookupSpend_update]
        have heq : (if c = t.category then t.amount else 0) =
            (if t.type = TKind.expense ∧ t.category = c then t.amount else 0) := by
          by_cases hc : t.category = c
          · rw [if_pos hc.symm, if_pos ⟨h, hc⟩]
          · rw [if_neg (fun hh => hc hh.symm), if_neg (fun hh => hc hh.2)]
        rw [heq]
        omega
      · rw [if_neg (by simp [h])]
        rw [if_neg (fun hh => h hh.1)]
        omega

lemma update_keys (acc : List (String × Int)) (c : String) (a : Int) :
    (updateSpending acc c a).map Prod.fst =
      if c ∈ acc.map Prod.fst then acc.map Prod.fst
      else acc.map Prod.fst ++ [c] := by
  induction acc with
  | nil => simp [updateSpending]
  | cons q rest ih =>
      obtain ⟨k, v⟩ := q
      by_cases hk : k = c
      · subst hk
        rw [show updateSpending ((k, v) :: rest) k a = (k, v + a) :: rest from by
          simp [updateSpending]]
        simp
      · rw [show updateSpending ((k, v) :: rest) c a =
            (k, v) :: updateSpending rest c a from by simp [updateSpending, hk]]
        by_cases hm : c ∈ rest.map Prod.fst
        · rw [List.map_cons, List.map_cons, ih, if_pos hm,
            if_pos (by simp [hm])]
        · rw [List.map_cons, List.map_cons, ih, if_neg hm,
            if_neg (by simp [List.mem_cons, hm]; exact fun hh => hk hh.symm)]
          simp

lemma spending_foldl_keys (ts : List Transaction) :
    ∀ acc, (ts.foldl spending_step acc).map Prod.fst =
      ts.foldl category_step (acc.map Prod.fst) := by
  induction ts with
  | nil => intro acc; rfl
  | cons t rest ih =>
      intro acc
      rw [List.foldl_cons, List.foldl_cons, ih]
      congr 1
      by_cases h : t.type = TKind.expense
      · rw [show spending_step acc t = updateSpending acc t.category t.amount
          from by simp [spending_step, h]]
        rw [update_keys]
        by_cases hm : t.category ∈ acc.map Prod.fst
        · rw [if_pos hm, show category_step (acc.map Prod.fst) t =
            acc.map Prod.fst from by simp [category_step, hm]]
        · rw [if_neg hm, show category_step (acc.map Prod.fst) t =
            acc.map Prod.fst ++ [t.category] from by simp [category_step, h, hm]]
      · rw [show spending_step acc t = acc from by simp [spending_step, h],
          show category_step (acc.map Prod.fst) t = acc.map Prod.fst from by
            simp [category_step, h]]

lemma spending_keys (ts : List Transaction) :
    (spending_by_category ts).map Prod.fst = expense_categories ts :=
  spending_foldl_keys ts []

lemma category_foldl_nodup (ts : List Transaction) :
    ∀ acc : List String, acc.Nodup → (ts.foldl category_step acc).Nodup := by
  induction ts with
  | nil => intro acc h; exact h
  | cons t rest ih =>
      intro acc h
      rw [List.foldl_cons]
      apply ih
      unfold category_step
      by_cases hc : (t.type == TKind.expense && !acc.contains t.category) = true
      · rw [if_pos hc]
        have hm : t.category ∉ acc := by
          simp only [Bool.and_eq_true, Bool.not_eq_true', beq_iff_eq] at hc
          simpa using hc.2
        simp [List.nodup_append, h, hm]
      · rw [if_neg hc]
        exact h

lemma expense_categories_nodup (ts : List Transaction) :
    (expense_categories ts).Nodup :=
  category_foldl_nodup ts [] List.nodup_nil

lemma mem_category_foldl (ts : List Transaction) (c : String) :
    ∀ acc, c ∈ ts.foldl category_step acc ↔
      c ∈ acc ∨ ∃ t ∈ ts, t.type = TKind.expense ∧ t.category = c := by
  induction ts with
  | nil => intro acc; simp
  | cons t rest ih =>
      intro acc
      rw [List.foldl_cons, ih]
      have hstep : c ∈ category_step acc t ↔
          c ∈ acc ∨ (t.type = TKind.expense ∧ t.category = c) := by
        unfold category_step
        by_cases h : t.type = TKind.expense
        · by_cases hm : t.category ∈ acc
          · rw [if_neg (by simp [h, hm])]
            constructor
            · exact fun hx => Or.inl hx
            · rintro (hx | ⟨_, hcat⟩)
              · exact hx
              · exact hcat ▸ hm
          · rw [if_pos (by simp [h, hm])]
            simp only [List.mem_append, List.mem_singleton]
            constructor
            · rintro (hx | hx)
              · exact Or.inl hx
              · exact Or.inr ⟨h, hx.symm⟩
            · rintro (hx | ⟨_, hcat⟩)
              · exact Or.inl hx
              · exact Or.inr hcat.symm
        · rw [if_neg (by simp [h])]
          constructor
          · exact fun hx => Or.inl hx
          · rintro (hx | ⟨hexp, _⟩)
            · exact hx
            · exact absurd hexp h
      rw [hstep]
      simp only [List.mem_cons]
      constructor
      · rintro ((hx | hx) | ⟨t', ht', h1, h2⟩)
        · exact Or.inl hx
        · exact Or.inr ⟨t, Or.inl rfl, hx⟩
        · exact Or.inr ⟨t', Or.inr ht', h1, h2⟩
      · rintro (hx | ⟨t', ht' | ht', h1, h2⟩)
        · exact Or.inl (Or.inl hx)
        · exact Or.inl (Or.inr (ht' ▸ ⟨h1, h2⟩))
        · exact Or.inr ⟨t', ht', h1, h2⟩

lemma mem_expense_categories (ts : List Transaction) (c : String) :
    c ∈ expense_categories ts ↔
      ∃ t ∈ ts, t.type = TKind.expense ∧ t.category = c := by
  rw [expense_categories, mem_category_foldl]
  simp

lemma lookupSpend_of_mem (l : List (String × Int)) (p : String × Int)
    (hnd : (l.map Prod.fst).Nodup) (hp : p ∈ l) :
    lookupSpend l p.1 = p.2 := by
  induction l with
  | nil => cases hp
  | cons q rest ih =>
      obtain ⟨k, v⟩ := q
      rw [List.map_cons, List.nodup_cons] at hnd
      rcases List.mem_cons.mp hp with h | h
      · subst h
        rw [lookupSpend_cons, if_pos rfl]
      · have hk : k ≠ p.1 := by
          intro hh
          apply hnd.1
          rw [hh]
          exact List.mem_map.mpr ⟨p, h, rfl⟩
        rw [lookupSpend_cons, if_neg hk]
        exact ih hnd.2 h

lemma mem_of_mem_keys (l : List (String × Int)) (c : String)
    (h : c ∈ l.map Prod.fst) : (c, lookupSpend l c) ∈ l := by
  induction l with
  | nil => simp at h
  | cons q rest ih =>
      obtain ⟨k, v⟩ := q
      by_cases hk : k = c
      · subst hk
        rw [lookupSpend_cons, if_pos rfl]
        exact List.mem_cons_self _ _
      · rw [lookupSpend_cons, if_neg hk]
        rw [List.map_cons, List.mem_cons] at h
        have hm : c ∈ rest.map Prod.fst := by
          rcases h with h1 | h1
          · exact absurd h1.symm hk
          · exact h1
        exact List.mem_cons_of_mem _ (ih hm)

lemma maxEntry_mem (best : String × Int) (l : List (String × Int)) :
    maxEntry best l ∈ best :: l := by
  induction l generalizing best with
  | nil => exact List.mem_cons_self _ _
  | cons p rest ih =>
      rcases List.mem_cons.mp (ih (if best.2 < p.2 then p else best)) with h | h
      · rw [maxEntry, h]
        by_cases hlt : best.2 < p.2
        · rw [if_pos hlt]
          exact List.mem_cons_of_mem _ (List.mem_cons_self _ _)
        · rw [if_neg hlt]
          exact List.mem_cons_self _ _
      · rw [maxEntry]
        exact List.mem_cons_of_mem _ (List.mem_cons_of_mem _ h)

lemma maxEntry_ge (best : String × Int) (l : List (String × Int)) :
    best.2 ≤ (maxEntry best l).2 ∧ ∀ p ∈ l, p.2 ≤ (maxEntry best l).2 := by
  induction l generalizing best with
  | nil => exact ⟨le_refl _, by simp⟩
  | cons p rest ih =>
      obtain ⟨h1, h2⟩ := ih (if best.2 < p.2 then p else best)
      have hb : best.2 ≤ (if best.2 < p.2 then p else best).2 := by
        by_cases hlt : best.2 < p.2
        · rw [if_pos hlt]
          exact le_of_lt hlt
        · rw [if_neg hlt]
      have hp : p.2 ≤ (if best.2 < p.2 then p else best).2 := by
        by_cases hlt : best.2 < p.2
        · rw [if_pos hlt]
        · rw [if_neg hlt]
          exact le_of_not_lt hlt
      refine ⟨?_, ?_⟩
      · rw [maxEntry]
        exact le_trans hb h1
      · intro q hq
        rw [maxEntry]
        rcases List.mem_cons.mp hq with h | h
        · subst h
          exact le_trans hp h1
        · exact h2 q h

lemma maxEntry_first (best : String × Int) (l : List (String × Int)) :
    ∃ l₁ l₂, best :: l = l₁ ++ maxEntry best l :: l₂ ∧
      ∀ p ∈ l₁, p.2 < (maxEntry best l).2 := by
  induction l generalizing best with
  | nil => exact ⟨[], [], rfl, by simp⟩
  | cons p rest ih =>
      obtain ⟨l₁, l₂, heq, hlt⟩ := ih (if best.2 < p.2 then p else best)
      by_cases hb : best.2 < p.2
      · rw [if_pos hb] at heq hlt
        refine ⟨best :: l₁, l₂, ?_, ?_⟩
        · rw [maxEntry, if_pos hb, List.cons_append, ← heq]
        · intro q hq
          rw [maxEntry, if_pos hb]
          rcases List.mem_cons.mp hq with h | h
          · exact h ▸ lt_of_lt_of_le hb (maxEntry_ge p rest).1
          · exact hlt q h
      · rw [if_neg hb] at heq hlt
        cases l₁ with
        | nil =>
            rw [List.nil_append] at heq
            obtain ⟨h1, h2⟩ := List.cons.inj heq
            refine ⟨[], p :: rest, ?_, by simp⟩
            rw [maxEntry, if_neg hb, List.nil_append, ← h1]
        | cons q l₁' =>
            rw [List.cons_append] at heq
            obtain ⟨h1, h2⟩ := List.cons.inj heq
            refine ⟨best :: p :: l₁', l₂, ?_, ?_⟩
            · rw [maxEntry, if_neg hb, List.cons_append, List.cons_append, ← h2]
            · intro x hx
              rw [maxEntry, if_neg hb]
              have hbestlt : best.2 < (maxEntry best rest).2 := by
                have := hlt q (List.mem_cons_self q l₁')
                exact h1 ▸ this
              rcases List.mem_cons.mp hx with h | h
              · exact h ▸ hbestlt
              · rcases List.mem_cons.mp h with h' | h'
                · exact h' ▸ lt_of_le_of_lt (le_of_not_lt hb) hbestlt
                · exact hlt x (List.mem_cons_of_mem q h')

/-- Predicate picking out the highest-spending advisory among the advisories
of get_recommendations. -/
def is_highest_advisory : Advisory → Bool
  | Advisory.highestSpending _ => true
  | Advisory.noBudgetHighSpend _ => false

lemma count_noBudget_map (l : List (String × Int)) (c : String) :
    ((l.map (fun p => Advisory.noBudgetHighSpend p.1)).count
      (Advisory.noBudgetHighSpend c)) = (l.map Prod.fst).count c := by
  induction l with
  | nil => rfl
  | cons p rest ih =>
      by_cases h : p.1 = c
      · simp [List.count_cons, ih, h]
      · simp [List.count_cons, ih, h]

lemma filter_highest_map_noBudget (l : List (String × Int)) :
    (l.map (fun p => Advisory.noBudgetHighSpend p.1)).filter
      is_highest_advisory = [] := by
  induction l with
  | nil => rfl
  | cons p rest ih => simp [List.filter_cons, is_highest_advisory, ih]

lemma spending_lookup_total (ts : List Transaction) (c : String) :
    lookupSpend (spending_by_category ts) c = adherence_spent ts c := by
  rw [spending_by_category, spending_foldl_lookup]
  rw [show lookupSpend [] c = 0 from rfl]
  omega

lemma spending_entry_total (ts : List Transaction) (p : String × Int)
    (hp : p ∈ spending_by_category ts) : p.2 = adherence_spent ts p.1 := by
  rw [← spending_lookup_total]
  exact (lookupSpend_of_mem _ p
    (spending_keys ts ▸ expense_categories_nodup ts) hp).symm

lemma adherence_spent_of_no_expense (ts : List Transaction) (c : String)
    (h : ¬ ∃ t ∈ ts, t.type = TKind.expense ∧ t.category = c) :
    adherence_spent ts c = 0 := by
  unfold adherence_spent
  rw [List.filter_eq_nil_iff.mpr ?_]
  · rfl
  · intro t ht hb
    simp only [Bool.and_eq_true, beq_iff_eq] at hb
    exact h ⟨t, ht, hb.1, hb.2⟩

/-- C6: over the whole transaction list passed in (not month-restricted),
get_recommendations emits exactly one no-budget advisory for a category
exactly when its total expense strictly exceeds 20000 minor units and it is
absent from the budget map; whenever some expense exists it emits exactly one
highest-spending advisory, whose category attains the maximum total spend and
strictly beats every category encountered before it (first-encounter
tie-break); and on the single Food expense of 25000 with empty budgets the
result is exactly the two advisories naming Food. -/
theorem C6_recommendations (ts : List Transaction)
    (budgets : List (String × Int)) :
    (∀ c, (get_recommendations ts budgets).count (Advisory.noBudgetHighSpend c) =
      if 20000 < adherence_spent ts c ∧ c ∉ budgets.map Prod.fst then 1 else 0) ∧
    ((∃ t ∈ ts, t.type = TKind.expense) →
      ∃ c, (get_recommendations ts budgets).filter is_highest_advisory =
          [Advisory.highestSpending c] ∧
        (∀ c' ∈ expense_categories ts,
          adherence_spent ts c' ≤ adherence_spent ts c) ∧
        (∃ l₁ l₂, expense_categories ts = l₁ ++ c :: l₂ ∧
          ∀ c' ∈ l₁, adherence_spent ts c' < adherence_spent ts c)) ∧
    get_recommendations [foodBig] [] =
      [Advisory.noBudgetHighSpend "Food", Advisory.highestSpending "Food"] := by
  have hkeys : (spending_by_category ts).map Prod.fst = expense_categories ts :=
    spending_keys ts
  have hnodup : ((spending_by_category ts).map Prod.fst).Nodup :=
    hkeys ▸ expense_categories_nodup ts
  refine ⟨?_, ?_, ?_⟩
  · intro c
    simp only [get_recommendations]
    rw [List.count_append, count_noBudget_map]
    have h2 : (match spending_by_category ts with
        | [] => ([] : List Advisory)
        | p :: rest => [Advisory.highestSpending (maxEntry p rest).1]).count
          (Advisory.noBudgetHighSpend c) = 0 := by
      cases spending_by_category ts with
      | nil => rfl
      | cons p rest => simp [List.count_cons]
    rw [h2, Nat.add_zero]
    have hndf : (((spending_by_category ts).filter (fun p =>
        !(budgets.map Prod.fst).contains p.1 && decide (p.2 > 20000))).map
          Prod.fst).Nodup :=
      hnodup.sublist (List.Sublist.map _ (List.filter_sublist _))
    by_cases hcond : 20000 < adherence_spent ts c ∧ c ∉ budgets.map Prod.fst
    · rw [if_pos hcond]
      apply List.count_eq_one_of_mem hndf
      have hc_cats : c ∈ expense_categories ts := by
        rw [mem_expense_categories]
        by_contra hno
        rw [adherence_spent_of_no_expense ts c hno] at hcond
        exact absurd hcond.1 (by norm_num)
      have hmem : (c, lookupSpend (spending_by_category ts) c) ∈
          spending_by_category ts :=
        mem_of_mem_keys _ _ (hkeys ▸ hc_cats)
      refine List.mem_map.mpr ⟨(c, lookupSpend (spending_by_category ts) c),
        List.mem_filter.mpr ⟨hmem, ?_⟩, rfl⟩
      simp only [Bool.and_eq_true, Bool.not_eq_true', decide_eq_true_eq]
      constructor
      · rw [← Bool.not_eq_true]
        simpa using hcond.2
      · rw [spending_lookup_total]
        exact hcond.1
    · rw [if_neg hcond]
      apply List.count_eq_zero_of_not_mem
      intro hmem
      obtain ⟨p, hpf, hp1⟩ := List.mem_map.mp hmem
      obtain ⟨hpS, hq⟩ := List.mem_filter.mp hpf
      simp only [Bool.and_eq_true, Bool.not_eq_true', decide_eq_true_eq] at hq
      apply hcond
      have hval := spending_entry_total ts p hpS
      constructor
      · rw [← hp1, ← hval]
        exact hq.2
      · rw [← hp1]
        simpa using hq.1
  · intro hex
    obtain ⟨t, ht, hexp⟩ := hex
    have hcats : expense_categories ts ≠ [] := by
      intro hnil
      have : t.category ∈ expense_categories ts :=
        (mem_expense_categories ts t.category).mpr ⟨t, ht, hexp, rfl⟩
      rw [hnil] at this
      exact absurd this (List.not_mem_nil _)
    have hSne : spending_by_category ts ≠ [] := by
      intro hnil
      apply hcats
      rw [← hkeys, hnil]
      rfl
    obtain ⟨p, rest, hS⟩ := List.exists_cons_of_ne_nil hSne
    have hM : maxEntry p rest ∈ spending_by_category ts := by
      rw [hS]
      exact maxEntry_mem p rest
    have hMval := spending_entry_total ts _ hM
    refine ⟨(maxEntry p rest).1, ?_, ?_, ?_⟩
    · simp only [get_recommendations, hS, List.filter_append,
        filter_highest_map_noBudget, List.nil_append]
      rfl
    · intro c' hc'
      have hmem : (c', lookupSpend (spending_by_category ts) c') ∈
          spending_by_category ts :=
        mem_of_mem_keys _ _ (hkeys ▸ hc')
      rw [hS] at hmem
      have hle : lookupSpend (p :: rest) c' ≤ (maxEntry p rest).2 := by
        rcases List.mem_cons.mp hmem with h | h
        · rw [show lookupSpend (p :: rest) c' = p.2 from congrArg Prod.snd h]
          exact (maxEntry_ge p rest).1
        · exact (maxEntry_ge p rest).2 _ h
      calc adherence_spent ts c'
          = lookupSpend (spending_by_category ts) c' :=
            (spending_lookup_total ts c').symm
        _ = lookupSpend (p :: rest) c' := by rw [hS]
        _ ≤ (maxEntry p rest).2 := hle
        _ = adherence_spent ts (maxEntry p rest).1 := hMval
    · obtain ⟨l₁, l₂, heq, hlt⟩ := maxEntry_first p rest
      refine ⟨l₁.map Prod.fst, l₂.map Prod.fst, ?_, ?_⟩
      · rw [← hkeys, hS, heq]
        simp
      · intro c' hc'
        obtain ⟨q, hq, hq1⟩ := List.mem_map.mp hc'
        have hqS : q ∈ spending_by_category ts := by
          rw [hS, heq]
          exact List.mem_append_left _ hq
        have hqval := spending_entry_total ts q hqS
        rw [← hq1, ← hqval, ← hMval]
        exact hlt q hq
  · rfl

/-- C6 witness: the single Food expense of 25000 provides an expense
transaction, and the theorem yields the unique highest-spending advisory with
its maximality and first-encounter properties on that input. -/
theorem C6_recommendations_witness :
    (∃ t ∈ [foodBig], t.type = TKind.expense) ∧
    (∃ c, (get_recommendations [foodBig] []).filter is_highest_advisory =
        [Advisory.highestSpending c] ∧
      (∀ c' ∈ expense_categories [foodBig],
        adherence_spent [foodBig] c' ≤ adherence_spent [foodBig] c) ∧
      (∃ l₁ l₂, expense_categories [foodBig] = l₁ ++ c :: l₂ ∧
        ∀ c' ∈ l₁, adherence_spent [foodBig] c' < adherence_spent [foodBig] c)) := by
  refine ⟨⟨foodBig, by simp, rfl⟩, ?_⟩
  exact (C6_recommendations [foodBig] []).2.1 ⟨foodBig, by simp, rfl⟩

end FinanceTracker
